import Mathlib

/-!
Verification development for the observation-mode resolution and composition
engine of pysynphot (src/pysynphot/observationmode.py).

The Python code is shallowly embedded: strings are Lean strings, numpy float
arrays are lists of rationals, fallible Python code returns values in
`Except PyErr`, and external collaborators (the spectral-element algebra of
spectrum.py, the reference tables, file loading) are either passed in as
function parameters or modelled from the specification where indicated.
The file is organised as definitions first, theorems second.
-/

/-- Python exception classes that the embedded code can raise. -/
inductive PyErr where
  | indexError
  | typeError
  | valueError
  | attributeError
  | notImplementedError
  | unboundLocalError
  deriving DecidableEq

deriving instance DecidableEq for Except

/-! ## Character and string utilities shared by the embedding -/

/-- ASCII lowercasing of one character, the part of Python `str.lower` exercised
by observation-mode strings (instrument keywords are ASCII). -/
def lowerChar : Char → Char
  | 'A' => 'a'
  | 'B' => 'b'
  | 'C' => 'c'
  | 'D' => 'd'
  | 'E' => 'e'
  | 'F' => 'f'
  | 'G' => 'g'
  | 'H' => 'h'
  | 'I' => 'i'
  | 'J' => 'j'
  | 'K' => 'k'
  | 'L' => 'l'
  | 'M' => 'm'
  | 'N' => 'n'
  | 'O' => 'o'
  | 'P' => 'p'
  | 'Q' => 'q'
  | 'R' => 'r'
  | 'S' => 's'
  | 'T' => 't'
  | 'U' => 'u'
  | 'V' => 'v'
  | 'W' => 'w'
  | 'X' => 'x'
  | 'Y' => 'y'
  | 'Z' => 'z'
  | c => c

/-- Python `str.split(sep)` for a one-character separator: splitting at every
occurrence, so that the empty string yields `[[]]` (one empty token), exactly
as `''.split(',') == ['']` in Python. -/
def splitChar (sep : Char) : List Char → List (List Char)
  | [] => [[]]
  | c :: rest =>
      if c = sep then [] :: splitChar sep rest
      else
        match splitChar sep rest with
        | [] => [[c]]
        | t :: ts => (c :: t) :: ts

/-! ## Python float parsing (for parameterized keywords)

Python `float(str)` accepts an optionally signed decimal literal with an
optional fraction and exponent, surrounded by optional whitespace.  Values are
modelled as rationals; the special values `inf` and `nan` (which have no
rational counterpart and never occur in mode strings) are treated as parse
failures, and digit-group underscores are not modelled. -/

def isDigitChar (c : Char) : Bool := '0' ≤ c && c ≤ '9'

def isFloatSpace (c : Char) : Bool :=
  c = ' ' || c = '\t' || c = '\n' || c = '\r' || c = '\x0b' || c = '\x0c'

def digitsToNat (cs : List Char) : Nat :=
  cs.foldl (fun a c => a * 10 + (c.toNat - 48)) 0

def tenPowNat : Nat → Nat
  | 0 => 1
  | n + 1 => 10 * tenPowNat n

def tenPow : Int → ℚ
  | .ofNat n => (tenPowNat n : ℚ)
  | .negSucc n => (1 : ℚ) / (tenPowNat (n + 1) : ℚ)

def expNat (cs : List Char) : Option Int :=
  if cs ≠ [] && cs.all isDigitChar then some (digitsToNat cs) else none

def expDigits : List Char → Option Int
  | '+' :: rest => expNat rest
  | '-' :: rest => (expNat rest).map Neg.neg
  | cs => expNat cs

/-- Exponent suffix of a float literal; an empty remainder means exponent 0. -/
def expPart : List Char → Option Int
  | [] => some 0
  | 'e' :: rest => expDigits rest
  | 'E' :: rest => expDigits rest
  | _ => none

def fracValue (cs : List Char) : ℚ :=
  (digitsToNat cs : ℚ) / (tenPowNat cs.length : ℚ)

def pyFloatUnsigned (cs : List Char) : Option ℚ :=
  let intPart := cs.takeWhile isDigitChar
  let rest := cs.dropWhile isDigitChar
  match rest with
  | '.' :: rest2 =>
      let fracPart := rest2.takeWhile isDigitChar
      let rest3 := rest2.dropWhile isDigitChar
      if intPart.isEmpty && fracPart.isEmpty then none
      else (expPart rest3).map
        (fun e => ((digitsToNat intPart : ℚ) + fracValue fracPart) * tenPow e)
  | _ =>
      if intPart.isEmpty then none
      else (expPart rest).map (fun e => (digitsToNat intPart : ℚ) * tenPow e)

def pyFloatSigned : List Char → Option ℚ
  | '+' :: rest => pyFloatUnsigned rest
  | '-' :: rest => (pyFloatUnsigned rest).map Neg.neg
  | cs => pyFloatUnsigned cs

/-- Python `float(s)` on the character list of `s`. -/
def pyFloatChars (cs : List Char) : Option ℚ :=
  pyFloatSigned (((cs.dropWhile isFloatSpace).reverse.dropWhile isFloatSpace).reverse)

/-! ## The mode parser (BaseObservationMode.__init__, lines 94-107)

`modes = obsmode.lower().split(',')`; when the raw string contains `#`, every
token holding `#` is unpacked by `key,val = m.split('#')` (a ValueError when
the split does not yield exactly two parts), `val` is parsed with `float`
(a ValueError when malformed) and stored in `pardict` under `key`, and the
keyword list records `key#` in place of the token. -/

/-- Python dict assignment `d[k] = v`: overwrite an existing key in place,
otherwise append the new binding. -/
def dictSet (d : List (String × ℚ)) (k : String) (v : ℚ) : List (String × ℚ) :=
  match d with
  | [] => [(k, v)]
  | (k0, v0) :: rest => if k0 = k then (k, v) :: rest else (k0, v0) :: dictSet rest k v

/-- The token loop of lines 98-105, threading `pardict` left to right. -/
def parseTokensGo (pd : List (String × ℚ)) :
    List (List Char) → Except PyErr (List (List Char) × List (String × ℚ))
  | [] => .ok ([], pd)
  | m :: rest =>
      if m.contains '#' then
        match splitChar '#' m with
        | [key, val] =>
            match pyFloatChars val with
            | some q =>
                (parseTokensGo (dictSet pd (String.mk key) q) rest).map
                  (fun r => ((key ++ ['#']) :: r.1, r.2))
            | none => .error .valueError
        | _ => .error .valueError
      else
        (parseTokensGo pd rest).map (fun r => (m :: r.1, r.2))

/-- Keyword-and-parameter extraction of BaseObservationMode.__init__
(lines 94-107): lowercase, split on commas, and expand parameterized tokens
only when the raw string contains a `#`. -/
def parseModes (obsmode : String) :
    Except PyErr (List String × List (String × ℚ)) :=
  let modes := splitChar ',' (obsmode.data.map lowerChar)
  if obsmode.data.contains '#' then
    match parseTokensGo [] modes with
    | .ok r => .ok (r.1.map String.mk, r.2)
    | .error e => .error e
  else .ok (modes.map String.mk, [])

/-! ## The band(...) wrapper (BaseObservationMode.__init__, lines 86-89)

`re.search(r'band\((.*?)\)', obsmode, re.IGNORECASE)`: the leftmost
case-insensitive occurrence of `band(` that is followed, with no intervening
newline (`.` does not match a newline), by a `)`; the lazy group is everything
up to the first such `)`.  When the search succeeds the mode string is replaced
by the group before any further processing. -/

/-- Whether the character list starts with `band(`, case-insensitively. -/
def bandOpenAt : List Char → Bool
  | b :: a :: n :: d :: p :: _ =>
      (lowerChar b == 'b') && (lowerChar a == 'a') && (lowerChar n == 'n') &&
        (lowerChar d == 'd') && (p == '(')
  | _ => false

/-- The lazy group `(.*?)\)`: characters up to the first `)`, failing if a
newline (which `.` cannot match) or the end of input comes first. -/
def groupAfter : List Char → Option (List Char)
  | [] => none
  | c :: rest =>
      if c = ')' then some []
      else if c = '\n' then none
      else (groupAfter rest).map (fun g => c :: g)

/-- Leftmost search for a full `band(...)` match, returning its group. -/
def bandScan : List Char → Option (List Char)
  | [] => none
  | c :: rest =>
      if bandOpenAt (c :: rest) then
        match groupAfter (rest.drop 4) with
        | some g => some g
        | none => bandScan rest
      else bandScan rest

/-- Lines 86-89: strip a `band(...)` wrapper when the search matches. -/
def stripBand (s : String) : String :=
  match bandScan s.data with
  | some g => String.mk g
  | none => s

/-- The `rawString` attribute of a resolved mode: `self._obsmode` is assigned
at line 89 only after the `band(...)` stripping of lines 86-88, and
`__str__` (lines 143-144) returns it unchanged. -/
def rawString (obsmode : String) : String := stripBand obsmode

/-! ## Spectral elements and wavelength sets

The spectral-element algebra lives in spectrum.py, an external collaborator
of the composition engine (part of the repository but not under src/); the
operations used by observationmode.py are modelled from the spec. -/

/-- A spectral element: a tabulated throughput curve.  `waveset` is the native
wavelength grid (`GetWaveSet`), `sample` is pointwise evaluation (Python
`element(wavelengths)` maps it over an array). -/
structure SpectralElement where
  waveset : List ℚ
  sample : ℚ → ℚ
  waveunits : String
  name : String

/-- Insertion of one wavelength into a sorted duplicate-free list, keeping it
sorted and duplicate-free. -/
def insertWave (x : ℚ) : List ℚ → List ℚ
  | [] => [x]
  | y :: ys => if x < y then x :: y :: ys else if x = y then y :: ys else y :: insertWave x ys

/-- Modelled from the spec: `spectrum.MergeWaveSets` (not under src/) returns
the sorted union of two monotonic wavelength sequences with exact duplicates
removed. -/
def MergeWaveSets (a b : List ℚ) : List ℚ :=
  b.foldl (fun acc x => insertWave x acc) a

/-- Modelled from the spec: multiplication of two spectral elements
(spectrum.py, outside src/) samples the pointwise product on the merged union
of the two native wavelength grids. -/
def specMul (a b : SpectralElement) : SpectralElement :=
  { waveset := MergeWaveSets a.waveset b.waveset
    sample := fun w => a.sample w * b.sample w
    waveunits := a.waveunits
    name := a.name ++ " * " ++ b.name }

/-- The result type of `Throughput` and `Sensitivity`:
`spectrum.TabularSpectralElement` with the fields observationmode.py assigns. -/
structure TabularSpectralElement where
  wavetable : List ℚ
  throughputtable : List ℚ
  waveunits : String
  name : String

/-- Modelled from the spec: `spectrum.ThermalSpectralElement` (outside src/)
carries an emissivity curve with its native grid, a temperature and a beam
fill factor. -/
structure ThermalSpectralElement where
  waveset : List ℚ
  temperature : ℚ
  beamFillFactor : ℚ
  deriving DecidableEq

/-! ## Components (classes _Component and _ThermalComponent, lines 606-649) -/

/-- The clear-filter sentinel (line 42). -/
def CLEAR : String := "clear"

/-- An optical component: `throughput` is `None` exactly for the clear
sentinel, and `_empty` stays true in that case. -/
structure Component where
  throughput_name : String
  empty : Bool
  throughput : Option SpectralElement

def Component.isEmpty (c : Component) : Bool := c.empty

/-- The `_Component.__init__` and `_buildThroughput` logic (lines 606-628):
a non-clear name loads the named curve (interpolated when a parameter value is
supplied) and marks the component non-empty.  The external curve loaders of
spectrum.py are passed in as `lt` (TabularSpectralElement) and `li`
(InterpolatedSpectralElement). -/
def mkComponent (lt : String → SpectralElement) (li : String → ℚ → SpectralElement)
    (name : String) (interpval : Option ℚ) : Component :=
  if name ≠ CLEAR then
    match interpval with
    | none => ⟨name, false, some (lt name)⟩
    | some v => ⟨name, false, some (li name v)⟩
  else ⟨name, true, none⟩

/-- A thermal component (lines 634-649): `_empty` is false when either the
throughput name or the thermal name is not the clear sentinel. -/
structure ThermalComponent where
  throughput_name : String
  thermal_name : String
  empty : Bool
  throughput : Option SpectralElement
  emissivity : Option ThermalSpectralElement

def ThermalComponent.isEmpty (c : ThermalComponent) : Bool := c.empty

/-- `_ThermalComponent.__init__` (lines 636-648), with `lth` the external
`spectrum.ThermalSpectralElement` loader. -/
def mkThermalComponent (lt : String → SpectralElement) (li : String → ℚ → SpectralElement)
    (lth : String → ThermalSpectralElement)
    (tname thname : String) (interpval : Option ℚ) : ThermalComponent :=
  let base := mkComponent lt li tname interpval
  if thname ≠ CLEAR then ⟨tname, thname, false, base.throughput, some (lth thname)⟩
  else ⟨tname, thname, base.empty, base.throughput, none⟩

/-- Whether a throughput filename ends with the parameter marker `#]`
(line 326 and line 502). -/
def hashBracketSuffix (cs : List Char) : Bool :=
  match cs.reverse with
  | ']' :: '#' :: _ => true
  | _ => false

/-- Parameter-key extraction from a throughput filename (lines 326-330 and
502-506): a name ending in `#]` is unpacked by
`barename,parkey = throughput_name.split('[')` (a ValueError unless the split
yields exactly two parts) and the trailing two characters of `parkey` are
dropped. -/
def parkeyOf (tname : String) : Except PyErr (Option String) :=
  if hashBracketSuffix tname.data then
    match splitChar '[' tname.data with
    | [_, pk] => .ok (some (String.mk pk.dropLast.dropLast))
    | _ => .error .valueError
  else .ok none

/-! ## Optical composition (class ObservationMode) -/

/-- One step of `_getOpticalComponents` (lines 323-342): extract the parameter
key, look its value up in `pardict` (`dict.get` returns `None` on a missing
key), and build the component.  The caller-owned build cache
(`component_dict`) only memoizes value-equal rebuilds and is not modelled. -/
def buildOpticalComponent (pd : String → Option ℚ) (lt : String → SpectralElement)
    (li : String → ℚ → SpectralElement) (tname : String) : Except PyErr Component := do
  let pk ← parkeyOf tname
  pure (mkComponent lt li tname (pk.bind pd))

/-- `ObservationMode._getOpticalComponents` (lines 323-342): build a component
for every throughput filename and keep, in traversal order, those that are not
empty. -/
def getOpticalComponents (pd : String → Option ℚ) (lt : String → SpectralElement)
    (li : String → ℚ → SpectralElement) : List String → Except PyErr (List Component)
  | [] => .ok []
  | tname :: rest => do
      let comp ← buildOpticalComponent pd lt li tname
      let others ← getOpticalComponents pd lt li rest
      pure (if comp.empty then others else comp :: others)

/-- All components the traversal of `_getOpticalComponents` builds, in order
and before the `isEmpty` filter; used to state the chain invariant. -/
def opticalComponentsAll (pd : String → Option ℚ) (lt : String → SpectralElement)
    (li : String → ℚ → SpectralElement) : List String → Except PyErr (List Component)
  | [] => .ok []
  | tname :: rest => do
      let comp ← buildOpticalComponent pd lt li tname
      let others ← opticalComponentsAll pd lt li rest
      pure (comp :: others)

/-- The multiplication loop of `_multiplyThroughputs` (lines 398-400).  The
running Python value `product` may be `None`; `None * curve` raises TypeError. -/
def mulLoop : Option SpectralElement → List Component → Except PyErr (Option SpectralElement)
  | prod, [] => .ok prod
  | prod, comp :: rest =>
      if comp.throughput.isSome then
        match prod, comp.throughput with
        | some p, some t => mulLoop (some (specMul p t)) rest
        | _, _ => .error .typeError
      else mulLoop prod rest

/-- `ObservationMode._multiplyThroughputs(index)` (lines 395-401):
`product = self.components[index].throughput` (an IndexError when the list is
too short; the guard `len(self.components) > index` on line 397 is then always
true) followed by the left-to-right multiplication loop over
`self.components[index+1:]`. -/
def multiplyThroughputs (components : List Component) (index : Nat) :
    Except PyErr (Option SpectralElement) :=
  match components.get? index with
  | none => .error .indexError
  | some c => mulLoop c.throughput (components.drop (index + 1))

/-- The Python call protocol for `_multiplyThroughputs`, which declares exactly
one required positional parameter `index` (line 395): a call binds `index` only
when exactly one positional argument is supplied, and raises TypeError before
the body runs otherwise. -/
def callMultiplyThroughputs (components : List Component) (args : List Nat) :
    Except PyErr (Option SpectralElement) :=
  match args with
  | [index] => multiplyThroughputs components index
  | _ => .error .typeError

/-- Python `str(component)` (lines 616-617): the string form of the throughput,
whose own string form is its name; `str(None)` is the literal `"None"`. -/
def strComponent (c : Component) : String :=
  match c.throughput with
  | some t => t.name
  | none => "None"

/-- `product.GetWaveSet()` on a possibly-`None` product: attribute access on
`None` raises AttributeError. -/
def pyGetWaveSet (x : Option SpectralElement) : Except PyErr (List ℚ) :=
  match x with
  | some t => .ok t.waveset
  | none => .error .attributeError

/-- `product(wavetable)` on a possibly-`None` product: calling `None` raises
TypeError. -/
def pyCallElement (x : Option SpectralElement) (ws : List ℚ) : Except PyErr (List ℚ) :=
  match x with
  | some t => .ok (ws.map t.sample)
  | none => .error .typeError

/-- `product.waveunits` on a possibly-`None` product. -/
def pyWaveunits (x : Option SpectralElement) : Except PyErr String :=
  match x with
  | some t => .ok t.waveunits
  | none => .error .attributeError

/-- The `try` body of `ObservationMode.Throughput` (lines 377-389). -/
def throughputBody (components : List Component) : Except PyErr TabularSpectralElement := do
  let product ← multiplyThroughputs components 0
  let w ← pyGetWaveSet product
  let tvals ← pyCallElement product w
  let wu ← pyWaveunits product
  pure { wavetable := w
         throughputtable := tvals
         waveunits := wu
         name := String.intercalate "*" (components.map strComponent) }

/-- `ObservationMode.Throughput` (lines 368-392): the body runs under
`try ... except IndexError: return None`, so an IndexError from an empty or
too-short component chain is swallowed and `None` is returned, while any other
exception propagates. -/
def Throughput (components : List Component) :
    Except PyErr (Option TabularSpectralElement) :=
  match throughputBody components with
  | .ok t => .ok (some t)
  | .error .indexError => .ok none
  | .error e => .error e

/-- Whether a `Throughput` result is a combined curve (neither a propagated
exception nor the `None` returned for a broken chain). -/
def returnsCombinedCurve : Except PyErr (Option TabularSpectralElement) → Bool
  | .ok (some _) => true
  | _ => false

/-- `ObservationMode.Sensitivity` (lines 346-366): line 360 calls
`self._multiplyThroughputs()` with no positional argument although the method
requires one, then would scale the product by wavelength and by the
sensitivity constant `5.03411762e7 * primary_area` (line 127), passed here
as `constant`. -/
def Sensitivity (components : List Component) (constant : ℚ) :
    Except PyErr TabularSpectralElement := do
  let product ← callMultiplyThroughputs components []
  let w ← pyGetWaveSet product
  let tvals ← pyCallElement product w
  pure { wavetable := w
         throughputtable := List.zipWith (fun t lam => t * lam * constant) tvals w
         waveunits := ""
         name := "" }

/-! ## Thermal observation mode (class _ThermalObservationMode) -/

/-- `BaseObservationMode._getFileNames` (lines 149-163): a component name that
is empty or the clear sentinel maps to the clear filename; any other name is
resolved through the component table (`table`, folding in the external
`irafconvert`/`lstrip` normalization), and an unresolvable name raises
IndexError. -/
def getFileNames (table : String → Option String) (compnames : List String) :
    Except PyErr (List String) :=
  compnames.mapM (fun compname =>
    if compname = "" || compname = CLEAR then pure CLEAR
    else
      match table compname with
      | some f => pure f
      | none => .error .indexError)

/-- The body of `_getThermalComponents` (lines 497-513): walk the throughput
and thermal filename lists in lockstep (`thermal_filenames[i]` raises
IndexError when that list is shorter), build each thermal component, and keep
the non-empty ones in order. -/
def getThermalComponents (pd : String → Option ℚ) (lt : String → SpectralElement)
    (li : String → ℚ → SpectralElement) (lth : String → ThermalSpectralElement) :
    List String → List String → Except PyErr (List ThermalComponent)
  | [], _ => .ok []
  | _ :: _, [] => .error .indexError
  | tname :: trest, thname :: threst => do
      let pk ← parkeyOf tname
      let comp := mkThermalComponent lt li lth tname thname (pk.bind pd)
      let others ← getThermalComponents pd lt li lth trest threst
      pure (if comp.empty then others else comp :: others)

/-- All thermal components the traversal builds, in order and before the
`isEmpty` filter. -/
def thermalComponentsAll (pd : String → Option ℚ) (lt : String → SpectralElement)
    (li : String → ℚ → SpectralElement) (lth : String → ThermalSpectralElement) :
    List String → List String → Except PyErr (List ThermalComponent)
  | [], _ => .ok []
  | _ :: _, [] => .error .indexError
  | tname :: trest, thname :: threst => do
      let pk ← parkeyOf tname
      let comp := mkThermalComponent lt li lth tname thname (pk.bind pd)
      let others ← thermalComponentsAll pd lt li lth trest threst
      pure (comp :: others)

/-- `_ThermalObservationMode.__init__` (lines 430-475) up to the construction
of the component chain: the guard of lines 444-447 raises NotImplementedError
(the UnsupportedKind condition) when every thermal component name is one of
the no-thermal markers `clear`, `''`, `'0.0'` — exactly the names that denote
an absent emissivity curve — before any table lookup is attempted.  `ct` and
`tt` are the optical and thermal component tables. -/
def thermalObservationModeInit (pd : String → Option ℚ) (lt : String → SpectralElement)
    (li : String → ℚ → SpectralElement) (lth : String → ThermalSpectralElement)
    (ct tt : String → Option String)
    (compnames thcompnames : List String) : Except PyErr (List ThermalComponent) :=
  if thcompnames.all (fun n => n == CLEAR || n == "" || n == "0.0") then
    .error .notImplementedError
  else do
    let tfiles ← getFileNames ct compnames
    let thfiles ← getFileNames tt thcompnames
    getThermalComponents pd lt li lth tfiles thfiles

/-- `ObservationMode.ThermalSpectrum` (lines 404-424): the delegated thermal
construction runs under `try ... except IndexError`, which re-raises
IndexError (with a broken-graph-table message) and lets every other exception
— NotImplementedError in particular — propagate unchanged.  The downstream
synthesis loop `_getSpectrum` (lines 526-556) is outside the claims; the
successfully constructed chain stands for its result. -/
def ThermalSpectrum (pd : String → Option ℚ) (lt : String → SpectralElement)
    (li : String → ℚ → SpectralElement) (lth : String → ThermalSpectralElement)
    (ct tt : String → Option String)
    (compnames thcompnames : List String) : Except PyErr (List ThermalComponent) :=
  match thermalObservationModeInit pd lt li lth ct tt compnames thcompnames with
  | .error .indexError => .error .indexError
  | r => r

/-- The scan of `_ThermalObservationMode._multiplyThroughputs` (lines 518-522):
the index of the first component whose throughput is not `None` (the length of
the chain when all are `None`). -/
def firstThroughputIndex : List ThermalComponent → Nat
  | [] => 0
  | c :: rest => if c.throughput.isSome then 0 else firstThroughputIndex rest + 1

/-- The delegation target of line 524, `BaseObservationMode._multiplyThroughputs`:
the class body of BaseObservationMode (lines 45-250) defines no method of this
name (`_multiplyThroughputs` is defined on the subclass ObservationMode, from
which _ThermalObservationMode does not inherit), so the attribute lookup has no
value. -/
def baseMultiplyThroughputsLookup :
    Option (List ThermalComponent → Nat → Except PyErr (Option SpectralElement)) := none

/-- `_ThermalObservationMode._multiplyThroughputs` (lines 515-524): compute the
first transmissive index, then call `BaseObservationMode._multiplyThroughputs`;
since that attribute does not exist, the lookup raises AttributeError. -/
def thermalMultiplyThroughputs (components : List ThermalComponent) :
    Except PyErr (Option SpectralElement) :=
  let index := firstThroughputIndex components
  match baseMultiplyThroughputsLookup with
  | some f => f components index
  | none => .error .attributeError

/-! ## The thermal wavelength-set intersection (lines 558-597) -/

/-- Python `array[0]` on a wavelength array. -/
def pyHead (l : List ℚ) : Except PyErr ℚ :=
  match l with
  | [] => .error .indexError
  | x :: _ => .ok x

/-- Python `array[-1]` on a wavelength array. -/
def pyLast (l : List ℚ) : Except PyErr ℚ :=
  match l.getLast? with
  | some x => .ok x
  | none => .error .indexError

/-- The bounds loop of `_getWavesetIntersection` (lines 562-567), which runs
over `self.components[1:]`: for every component with an emissivity curve,
raise the minimum to that curve's first wavelength and lower the maximum to
its last. -/
def emissivityBounds : ℚ × ℚ → List ThermalComponent → Except PyErr (ℚ × ℚ)
  | mm, [] => .ok mm
  | mm, c :: rest =>
      match c.emissivity with
      | none => emissivityBounds mm rest
      | some e =>
          match pyHead e.waveset, pyLast e.waveset with
          | .ok w0, .ok w1 => emissivityBounds (max mm.1 w0, min mm.2 w1) rest
          | .error er, _ => .error er
          | _, .error er => .error er

/-- The seed search of `_mergeEmissivityWavesets` (lines 583-591): `index`
starts at 1 and is incremented past every component without an emissivity; the
first emissivity's grid seeds the merge.  When no component has one, `result`
is unbound and the `return` raises UnboundLocalError. -/
def mergeSeed : List ThermalComponent → Nat → Option (Nat × List ℚ)
  | [], _ => none
  | c :: rest, idx =>
      match c.emissivity with
      | none => mergeSeed rest (idx + 1)
      | some e => some (idx, e.waveset)

/-- `_ThermalObservationMode._mergeEmissivityWavesets` (lines 582-597). -/
def mergeEmissivityWavesets (components : List ThermalComponent) :
    Except PyErr (List ℚ) :=
  match mergeSeed components 1 with
  | none => .error .unboundLocalError
  | some (index, seed) =>
      .ok ((components.drop index).foldl
        (fun res c =>
          match c.emissivity with
          | some e => MergeWaveSets res e.waveset
          | none => res) seed)

/-- `_ThermalObservationMode._getWavesetIntersection` (lines 558-580):
bounds seeded from the global default waveset, tightened over
`self.components[1:]`, applied strictly to the merged emissivity grids, then
further bounded strictly by the calibration (Vega) spectrum's domain.  The
default waveset (`refs._default_waveset`) and the Vega waveset (loaded from
`locations.VegaFile`) are external data passed in as parameters. -/
def getWavesetIntersection (defaultWaveset vegaWaveset : List ℚ)
    (components : List ThermalComponent) : Except PyErr (List ℚ) := do
  let minw0 ← pyHead defaultWaveset
  let maxw0 ← pyLast defaultWaveset
  let mm ← emissivityBounds (minw0, maxw0) (components.drop 1)
  let merged ← mergeEmissivityWavesets components
  let r1 := merged.filter (fun w => decide (mm.1 < w))
  let r2 := r1.filter (fun w => decide (w < mm.2))
  let v0 ← pyHead vegaWaveset
  let v1 ← pyLast vegaWaveset
  pure ((r2.filter (fun w => decide (v0 < w))).filter (fun w => decide (w < v1)))

/-! ## Specification-side definitions for the waveset-intersection claim -/

/-- The first wavelength of each emissivity grid in a component list. -/
def emins (l : List ThermalComponent) : List ℚ :=
  l.filterMap (fun c => c.emissivity.map (fun e => e.waveset.head?.getD 0))

/-- The last wavelength of each emissivity grid in a component list. -/
def emaxs (l : List ThermalComponent) : List ℚ :=
  l.filterMap (fun c => c.emissivity.map (fun e => e.waveset.getLast?.getD 0))

/-- The per-source minimums as claim C3 states them: the default grid, the
emissivity grid of every component in the chain that has one (the first
included), and the calibration-spectrum domain. -/
def claimLowerSources (dw vw : List ℚ) (cs : List ThermalComponent) : List ℚ :=
  dw.head?.getD 0 :: vw.head?.getD 0 :: emins cs

/-- The per-source maximums as claim C3 states them. -/
def claimUpperSources (dw vw : List ℚ) (cs : List ThermalComponent) : List ℚ :=
  dw.getLast?.getD 0 :: vw.getLast?.getD 0 :: emaxs cs

/-- The working grid exactly as claim C3 describes it: merged emissivity grids
restricted to samples strictly above every per-source minimum and strictly
below every per-source maximum, with the first component's grid counted among
the bound sources. -/
def wavesetIntersectionClaim (dw vw : List ℚ) (cs : List ThermalComponent) :
    Except PyErr (List ℚ) :=
  (mergeEmissivityWavesets cs).map (fun merged =>
    merged.filter (fun w =>
      (claimLowerSources dw vw cs).all (fun m => decide (m < w)) &&
        (claimUpperSources dw vw cs).all (fun M => decide (w < M))))

/-- The per-source minimums the code actually enforces: the default grid, the
calibration domain, and the emissivity grids of the components after the
first. -/
def lowerSources (dw vw : List ℚ) (cs : List ThermalComponent) : List ℚ :=
  dw.head?.getD 0 :: vw.head?.getD 0 :: emins (cs.drop 1)

/-- The per-source maximums the code actually enforces. -/
def upperSources (dw vw : List ℚ) (cs : List ThermalComponent) : List ℚ :=
  dw.getLast?.getD 0 :: vw.getLast?.getD 0 :: emaxs (cs.drop 1)

/-- The amended description of the working grid: as the claim, except that the
first component's emissivity grid contributes samples to the merge but not
bounds, and boundary samples are dropped along with out-of-bounds ones. -/
def wavesetIntersectionAmended (dw vw : List ℚ) (cs : List ThermalComponent) :
    Except PyErr (List ℚ) :=
  (mergeEmissivityWavesets cs).map (fun merged =>
    merged.filter (fun w =>
      (lowerSources dw vw cs).all (fun m => decide (m < w)) &&
        (upperSources dw vw cs).all (fun M => decide (w < M))))

/-! ## Concrete data for witnesses and counterexamples -/

/-- A stand-in for the external curve loader `spectrum.TabularSpectralElement`. -/
def demoLoad (n : String) : SpectralElement :=
  ⟨[1, 2], fun _ => 1, "angstrom", n⟩

/-- A stand-in for the external loader `spectrum.InterpolatedSpectralElement`. -/
def demoLoadInterp (n : String) (v : ℚ) : SpectralElement :=
  ⟨[1, 2], fun _ => v, "angstrom", n⟩

/-- A stand-in for the external loader `spectrum.ThermalSpectralElement`. -/
def demoLoadTherm (_n : String) : ThermalSpectralElement :=
  ⟨[1, 2], 300, 1⟩

/-- An empty parameter dictionary. -/
def demoPardict (_k : String) : Option ℚ := none

/-- A concrete non-clear optical component. -/
def demoComponent : Component :=
  ⟨"f1", false, some (demoLoad "f1")⟩

/-- First thermal component of the C3 scenario: emissivity grid [3, 5]. -/
def demoThermalA : ThermalComponent :=
  ⟨"t0", "th0", false, none, some ⟨[3, 5], 300, 1⟩⟩

/-- Second thermal component of the C3 scenario: emissivity grid [2, 7, 9]. -/
def demoThermalB : ThermalComponent :=
  ⟨"t1", "th1", false, none, some ⟨[2, 7, 9], 280, 1⟩⟩

/-- The component built from the clear sentinel. -/
def demoClearComponent : Component := ⟨"clear", true, none⟩

/-- Thermal component with a clear throughput but a real emissivity. -/
def demoThermalC0 : ThermalComponent :=
  ⟨"clear", "th1", false, none, some (demoLoadTherm "th1")⟩

/-- Thermal component with a real throughput but a clear emissivity. -/
def demoThermalC1 : ThermalComponent :=
  ⟨"f2", "clear", false, some (demoLoad "f2"), none⟩

/-- An always-empty component table. -/
def demoTable (_k : String) : Option String := none

/-! ## Theorems: utility lemmas -/

theorem splitChar_ne_nil (sep : Char) (cs : List Char) : splitChar sep cs ≠ [] := by
  induction cs with
  | nil => simp [splitChar]
  | cons c rest ih =>
      simp only [splitChar]
      split
      · simp
      · split
        · simp
        · simp

theorem splitChar_length (sep : Char) (cs : List Char) :
    (splitChar sep cs).length = cs.count sep + 1 := by
  induction cs with
  | nil => simp [splitChar]
  | cons c rest ih =>
      simp only [splitChar]
      by_cases h : c = sep
      · subst h
        simp [List.count_cons, ih]
      · simp only [if_neg h]
        cases hs : splitChar sep rest with
        | nil => exact absurd hs (splitChar_ne_nil sep rest)
        | cons t ts =>
            have := ih
            rw [hs] at this
            simp only [List.length_cons] at this ⊢
            rw [List.count_cons]
            simp [h, this]

theorem splitChar_mem (sep : Char) (cs : List Char) (m : List Char)
    (hm : m ∈ splitChar sep cs) (c : Char) (hc : c ∈ m) : c ∈ cs := by
  induction cs generalizing m with
  | nil =>
      simp [splitChar] at hm
      subst hm
      simp at hc
  | cons d rest ih =>
      simp only [splitChar] at hm
      by_cases h : d = sep
      · rw [if_pos h] at hm
        rcases List.mem_cons.mp hm with h1 | h1
        · subst h1; simp at hc
        · exact List.mem_cons_of_mem d (ih m h1 hc)
      · rw [if_neg h] at hm
        cases hs : splitChar sep rest with
        | nil => exact absurd hs (splitChar_ne_nil sep rest)
        | cons t ts =>
            rw [hs] at hm
            rcases List.mem_cons.mp hm with h1 | h1
            · subst h1
              rcases List.mem_cons.mp hc with h2 | h2
              · rw [h2]; exact List.mem_cons_self d rest
              · have : t ∈ splitChar sep rest := by rw [hs]; exact List.mem_cons_self t ts
                exact List.mem_cons_of_mem d (ih t this h2)
            · have : m ∈ splitChar sep rest := by rw [hs]; exact List.mem_cons_of_mem t h1
              exact List.mem_cons_of_mem d (ih m this hc)

theorem splitChar_map (f : Char → Char) (sep : Char)
    (hf : ∀ c, f c = sep ↔ c = sep) (cs : List Char) :
    splitChar sep (cs.map f) = (splitChar sep cs).map (List.map f) := by
  induction cs with
  | nil => simp [splitChar]
  | cons c rest ih =>
      simp only [List.map_cons, splitChar]
      by_cases h : c = sep
      · rw [if_pos ((hf c).mpr h), if_pos h, ih]
        simp
      · rw [if_neg (fun hcon => h ((hf c).mp hcon)), if_neg h]
        cases hs : splitChar sep rest with
        | nil => exact absurd hs (splitChar_ne_nil sep rest)
        | cons t ts => rw [ih, hs]; simp

theorem lowerChar_hash (c : Char) : lowerChar c = '#' ↔ c = '#' := by
  unfold lowerChar
  split <;> simp_all

theorem lowerChar_comma (c : Char) : lowerChar c = ',' ↔ c = ',' := by
  unfold lowerChar
  split <;> simp_all

theorem count_map_lowerChar (m : List Char) :
    (m.map lowerChar).count '#' = m.count '#' := by
  induction m with
  | nil => rfl
  | cons c rest ih =>
      simp only [List.map_cons, List.count_cons, ih]
      congr 1
      by_cases h : c = '#'
      · subst h; decide
      · have : lowerChar c ≠ '#' := fun hcon => h ((lowerChar_hash c).mp hcon)
        simp [h, this]

theorem contains_iff_mem (cs : List Char) (c : Char) :
    cs.contains c = true ↔ c ∈ cs := by
  simp [List.contains]

theorem groupAfter_length (cs : List Char) (g : List Char)
    (h : groupAfter cs = some g) : g.length < cs.length := by
  induction cs generalizing g with
  | nil => simp [groupAfter] at h
  | cons c rest ih =>
      simp only [groupAfter] at h
      by_cases h1 : c = ')'
      · rw [if_pos h1] at h
        cases h
        simp
      · rw [if_neg h1] at h
        by_cases h2 : c = '\n'
        · rw [if_pos h2] at h; cases h
        · rw [if_neg h2] at h
          cases hg : groupAfter rest with
          | none => rw [hg] at h; cases h
          | some g0 =>
              rw [hg] at h
              cases h
              have := ih g0 hg
              simpa using Nat.succ_lt_succ this

theorem bandScan_length (cs : List Char) (g : List Char)
    (h : bandScan cs = some g) : g.length + 6 ≤ cs.length := by
  induction cs generalizing g with
  | nil => simp [bandScan] at h
  | cons c rest ih =>
      simp only [bandScan] at h
      by_cases h1 : bandOpenAt (c :: rest)
      · rw [if_pos h1] at h
        cases hg : groupAfter (rest.drop 4) with
        | some g0 =>
            rw [hg] at h
            cases h
            have hlen := groupAfter_length _ _ hg
            have hdrop : (rest.drop 4).length = rest.length - 4 := List.length_drop 4 rest
            have h4 : 4 ≤ rest.length := by
              by_contra hcon
              push_neg at hcon
              have : rest.drop 4 = [] := List.drop_eq_nil_of_le (by omega)
              rw [this] at hg
              simp [groupAfter] at hg
            simp only [List.length_cons]
            omega
        | none =>
            rw [hg] at h
            have := ih g h
            simp only [List.length_cons]
            omega
      · rw [if_neg h1] at h
        have := ih g h
        simp only [List.length_cons]
        omega

/-! ## Theorems: the mode parser claims -/

theorem parseTokensGo_err (ts : List (List Char)) : ∀ (pd : List (String × ℚ)),
    (∃ m ∈ ts, 2 ≤ m.count '#') → parseTokensGo pd ts = .error .valueError := by
  induction ts with
  | nil => intro pd h; simp at h
  | cons m rest ih =>
      intro pd h
      rcases h with ⟨m0, hm0, hcount⟩
      rcases List.mem_cons.mp hm0 with heq | hmem
      · subst heq
        have hpos : m0.contains '#' = true := by
          rw [contains_iff_mem]
          exact List.count_pos_iff.mp (by omega)
        simp only [parseTokensGo, hpos, if_true]
        split
        · next key val heq2 =>
            have hlen := splitChar_length '#' m0
            rw [heq2] at hlen
            simp at hlen
            omega
        · rfl
      · simp only [parseTokensGo]
        by_cases hc : m.contains '#' = true
        · simp only [hc, if_true]
          split
          · next key val heq2 =>
              cases hf : pyFloatChars val with
              | some q =>
                  dsimp only
                  rw [ih _ ⟨m0, hmem, hcount⟩]
                  rfl
              | none => rfl
          · rfl
        · have hc2 : m.contains '#' = false := by
            revert hc; cases m.contains '#' <;> simp
          simp only [hc2, if_false]
          rw [ih _ ⟨m0, hmem, hcount⟩]
          rfl

/-- Claim C10: for every mode string in which some comma-separated token
contains two or more `#` characters, construction of the observation mode
fails with a ValueError — raised by the two-way unpacking
`key,val = m.split('#')` at that token (or already by the float parse of an
earlier malformed token) — and never stores a truncated key or value. -/
theorem doubleHash_construction_fails (s : String)
    (h : (splitChar ',' s.data).any (fun m => decide (2 ≤ m.count '#')) = true) :
    parseModes s = .error .valueError := by
  rcases List.any_eq_true.mp h with ⟨m0, hm0, hdec⟩
  have hcount : 2 ≤ m0.count '#' := of_decide_eq_true hdec
  have hhash : '#' ∈ m0 := List.count_pos_iff.mp (by omega)
  have hmemS : '#' ∈ s.data := splitChar_mem ',' s.data m0 hm0 '#' hhash
  have hcont : s.data.contains '#' = true := (contains_iff_mem _ _).mpr hmemS
  have hmap : splitChar ',' (s.data.map lowerChar)
      = (splitChar ',' s.data).map (List.map lowerChar) :=
    splitChar_map lowerChar ',' lowerChar_comma s.data
  have hm0' : m0.map lowerChar ∈ splitChar ',' (s.data.map lowerChar) := by
    rw [hmap]
    exact List.mem_map_of_mem _ hm0
  have hcount' : 2 ≤ (m0.map lowerChar).count '#' := by
    rw [count_map_lowerChar]
    exact hcount
  have herr := parseTokensGo_err _ [] ⟨m0.map lowerChar, hm0', hcount'⟩
  simp only [parseModes, hcont, if_true, herr]

/-- Witness for C10 at the concrete mode string "a#1#2". -/
theorem doubleHash_construction_fails_witness :
    (splitChar ',' ("a#1#2".data)).any (fun m => decide (2 ≤ m.count '#')) = true ∧
      parseModes "a#1#2" = .error .valueError :=
  ⟨by decide, doubleHash_construction_fails "a#1#2" (by decide)⟩

/-- Claim C5: the mode string "a#1.0,b" parses to keywords ["a#", "b"] with
parameter mapping {"a": 1.0}; a second, mixed-case two-parameter string
exercises the general rule (each token containing `#` is split there, the
value is float-parsed and stored under the key, and the keyword list keeps the
`key#` placeholder). -/
theorem parameterized_parse :
    parseModes "a#1.0,b" = .ok (["a#", "b"], [("a", 1)]) ∧
      parseModes "A#2.5,B,c#0.5" = .ok (["a#", "b", "c#"], [("a", 5/2), ("c", 1/2)]) := by
  constructor <;> with_unfolding_all decide

/-- Counterexample to claim C6: parsing the empty mode string succeeds but
yields the one-element keyword list holding the empty token — Python
`''.split(',')` is `['']` — not an empty keyword list as claimed. -/
theorem empty_mode_counterexample :
    parseModes "" = .ok ([""], []) ∧ ([""] : List String) ≠ [] := by
  exact ⟨by decide, by decide⟩

/-- Claim C6 as amended: parsing the empty mode string does not fail; it
yields the singleton keyword list containing the empty keyword and an empty
parameter mapping, so any failure can only arise at a later resolution stage. -/
theorem empty_mode_parses : parseModes "" = .ok ([""], []) := by decide

/-- Counterexample to claim C7: for the mode string "band(a)" the stored raw
string is the stripped group "a", not the original input. -/
theorem rawString_band_counterexample :
    rawString "band(a)" = "a" ∧ ("a" : String) ≠ "band(a)" := by
  exact ⟨by decide, by decide⟩

/-- Claim C7 as amended: the stored raw string equals the input exactly when
the case-insensitive search for a band(...) wrapper finds no match; when it
matches, the raw string is the group's content, which is strictly shorter than
the input. -/
theorem rawString_eq_iff (s : String) : rawString s = s ↔ bandScan s.data = none := by
  constructor
  · intro h
    cases hb : bandScan s.data with
    | none => rfl
    | some g =>
        exfalso
        have hlen := bandScan_length s.data g hb
        have hsg : rawString s = String.mk g := by
          simp [rawString, stripBand, hb]
        rw [h] at hsg
        have hdata : s.data = g := congrArg String.data hsg
        have : s.data.length = g.length := by rw [hdata]
        omega
  · intro h
    simp [rawString, stripBand, h]

/-! ## Theorems: optical composition claims -/

theorem mulLoop_some (l : List Component) : ∀ (p : SpectralElement),
    l.all (fun c => c.throughput.isSome) = true →
    ∃ q, mulLoop (some p) l = .ok (some q) := by
  induction l with
  | nil => exact fun p _ => ⟨p, rfl⟩
  | cons c rest ih =>
      intro p hall
      simp only [List.all_cons, Bool.and_eq_true] at hall
      obtain ⟨hc, hrest⟩ := hall
      cases ht : c.throughput with
      | none => rw [ht] at hc; simp at hc
      | some t =>
          obtain ⟨q, hq⟩ := ih (specMul p t) hrest
          refine ⟨q, ?_⟩
          simp only [mulLoop, ht, Option.isSome_some, if_true]
          exact hq

/-- Counterexample to claim C1: for the empty component chain, Throughput does
not fail at all; the IndexError raised by `self.components[0]` is caught at
line 391 and None — the degenerate result the claim rules out — is returned to
the caller. -/
theorem throughput_empty_counterexample : Throughput [] = .ok none := rfl

/-- Claim C1 as amended: for an empty (broken) chain, Throughput swallows the
IndexError and returns None rather than surfacing an error, while for a
nonempty chain whose components all carry a throughput curve (every optical
component does) it returns a combined curve and not None. -/
theorem throughput_amended (cs : List Component) :
    (cs = [] → Throughput cs = .ok none) ∧
      (cs ≠ [] → cs.all (fun c => c.throughput.isSome) = true →
        returnsCombinedCurve (Throughput cs) = true) := by
  constructor
  · intro h; subst h; rfl
  · intro hne hall
    cases cs with
    | nil => exact absurd rfl hne
    | cons c rest =>
        simp only [List.all_cons, Bool.and_eq_true] at hall
        obtain ⟨hc, hrest⟩ := hall
        cases ht : c.throughput with
        | none => rw [ht] at hc; simp at hc
        | some p =>
            obtain ⟨q, hq⟩ := mulLoop_some rest p hrest
            have hmul : multiplyThroughputs (c :: rest) 0 = .ok (some q) := by
              simp [multiplyThroughputs, ht, hq]
            simp [Throughput, throughputBody, hmul, pyGetWaveSet, pyCallElement,
              pyWaveunits, returnsCombinedCurve, Bind.bind, Except.bind,
              Functor.map, Except.map, Pure.pure, Except.pure]

/-- Witness for C1 as amended: the empty chain gives None, a one-component
chain gives a combined curve. -/
theorem throughput_amended_witness :
    Throughput [] = .ok none ∧
      returnsCombinedCurve (Throughput [demoComponent]) = true :=
  ⟨(throughput_amended []).1 rfl,
    (throughput_amended [demoComponent]).2 (by simp) rfl⟩

/-- Claim C2 (code bug): Sensitivity never returns the claimed curve — line
360 calls `self._multiplyThroughputs()` with no positional argument while the
method (line 395) requires `index`, so every call raises TypeError before any
throughput is combined; this is the bug acknowledged at lines 344-345
(astrolib ticket 257). -/
theorem sensitivity_always_raises (cs : List Component) (constant : ℚ) :
    Sensitivity cs constant = .error .typeError := rfl

/-! ## Theorems: thermal composition claims -/

/-- Claim C8 (code bug): the thermal `_multiplyThroughputs` does compute the
index of the first component with a non-absent throughput (the scan the claim
describes), but then delegates to `BaseObservationMode._multiplyThroughputs`,
a method the base class never defines, so every call raises AttributeError
instead of returning the left-to-right product anchored at that index. -/
theorem thermal_multiply_raises (cs : List ThermalComponent) :
    thermalMultiplyThroughputs cs = .error .attributeError ∧
      firstThroughputIndex cs
        = (cs.takeWhile (fun c => !c.throughput.isSome)).length := by
  refine ⟨rfl, ?_⟩
  induction cs with
  | nil => rfl
  | cons c rest ih =>
      simp only [firstThroughputIndex, List.takeWhile_cons]
      cases h : c.throughput.isSome <;> simp [h, ih]

/-! ## Theorems: thermal availability (claim C4) -/

/-- Claim C4: when every thermal component name is one of the no-thermal
markers `clear`, `''`, `'0.0'` — exactly the condition under which no
component of the chain carries a non-absent emissivity curve — thermal-mode
construction stops before any table lookup and fails with NotImplementedError
(UnsupportedKind); ThermalSpectrum propagates it unchanged (only IndexError is
caught and re-raised there), and it is a different error class from the
IndexError that signals a broken chain (BrokenChainKind). -/
theorem thermal_unsupported (pd : String → Option ℚ) (lt : String → SpectralElement)
    (li : String → ℚ → SpectralElement) (lth : String → ThermalSpectralElement)
    (ct tt : String → Option String) (compnames thcompnames : List String)
    (h : thcompnames.all (fun n => n == CLEAR || n == "" || n == "0.0") = true) :
    thermalObservationModeInit pd lt li lth ct tt compnames thcompnames
        = .error .notImplementedError ∧
      ThermalSpectrum pd lt li lth ct tt compnames thcompnames
        = .error .notImplementedError ∧
      PyErr.notImplementedError ≠ PyErr.indexError := by
  have h1 : thermalObservationModeInit pd lt li lth ct tt compnames thcompnames
      = .error .notImplementedError := by
    simp [thermalObservationModeInit, h]
  refine ⟨h1, ?_, by decide⟩
  simp [ThermalSpectrum, h1]

/-- Witness for C4 at a concrete chain whose thermal names are all
no-thermal markers. -/
theorem thermal_unsupported_witness :
    thermalObservationModeInit demoPardict demoLoad demoLoadInterp demoLoadTherm
        demoTable demoTable ["mirror"] ["clear", "", "0.0"]
        = .error .notImplementedError ∧
      ThermalSpectrum demoPardict demoLoad demoLoadInterp demoLoadTherm
        demoTable demoTable ["mirror"] ["clear", "", "0.0"]
        = .error .notImplementedError ∧
      PyErr.notImplementedError ≠ PyErr.indexError :=
  thermal_unsupported demoPardict demoLoad demoLoadInterp demoLoadTherm
    demoTable demoTable ["mirror"] ["clear", "", "0.0"] (by decide)

/-! ## Theorems: component-chain invariant (claim C9) -/

theorem filter_all_self {α : Type} (p : α → Bool) (l : List α) :
    (l.filter p).all p = true := by
  rw [List.all_eq_true]
  intro c hcmem
  exact (List.mem_filter.mp hcmem).2

theorem getOptical_eq_filter (pd : String → Option ℚ) (lt : String → SpectralElement)
    (li : String → ℚ → SpectralElement) :
    ∀ (fs : List String) (allc : List Component),
    opticalComponentsAll pd lt li fs = .ok allc →
    getOpticalComponents pd lt li fs = .ok (allc.filter (fun c => !c.empty)) := by
  intro fs
  induction fs with
  | nil =>
      intro allc h
      simp only [opticalComponentsAll] at h
      cases h
      rfl
  | cons t ts ih =>
      intro allc h
      simp only [opticalComponentsAll, Bind.bind, Except.bind] at h
      cases hb : buildOpticalComponent pd lt li t with
      | error e => rw [hb] at h; cases h
      | ok comp =>
          rw [hb] at h
          cases ha : opticalComponentsAll pd lt li ts with
          | error e => rw [ha] at h; cases h
          | ok others =>
              rw [ha] at h
              simp only [Pure.pure] at h
              cases h
              simp only [getOpticalComponents, Bind.bind, Except.bind, hb, ih _ ha]
              cases hce : comp.empty <;>
                simp [hce, List.filter_cons, Pure.pure, Except.pure]

theorem getThermal_eq_filter (pd : String → Option ℚ) (lt : String → SpectralElement)
    (li : String → ℚ → SpectralElement) (lth : String → ThermalSpectralElement) :
    ∀ (tfs thfs : List String) (allc : List ThermalComponent),
    thermalComponentsAll pd lt li lth tfs thfs = .ok allc →
    getThermalComponents pd lt li lth tfs thfs = .ok (allc.filter (fun c => !c.empty)) := by
  intro tfs
  induction tfs with
  | nil =>
      intro thfs allc h
      simp only [thermalComponentsAll] at h
      cases h
      rfl
  | cons t ts ih =>
      intro thfs allc h
      cases thfs with
      | nil => simp only [thermalComponentsAll] at h; cases h
      | cons th ths =>
          simp only [thermalComponentsAll, Bind.bind, Except.bind] at h
          cases hb : parkeyOf t with
          | error e => rw [hb] at h; cases h
          | ok pk =>
              rw [hb] at h
              cases ha : thermalComponentsAll pd lt li lth ts ths with
              | error e => rw [ha] at h; cases h
              | ok others =>
                  rw [ha] at h
                  simp only [Pure.pure] at h
                  cases h
                  simp only [getThermalComponents, Bind.bind, Except.bind, hb, ih _ _ ha]
                  cases hce : (mkThermalComponent lt li lth t th (pk.bind pd)).empty <;>
                    simp [hce, List.filter_cons, Pure.pure, Except.pure]

/-- Claim C9: every element of a constructed components list — optical or
thermal — satisfies isEmpty = false; components built from the clear sentinel
are excluded, and the kept chain is exactly the in-order filter of all
components the traversal builds, preserving traversal order. -/
theorem components_invariant (pd : String → Option ℚ) (lt : String → SpectralElement)
    (li : String → ℚ → SpectralElement) (lth : String → ThermalSpectralElement)
    (fs tfs thfs : List String) (comps allc : List Component)
    (tcomps tallc : List ThermalComponent)
    (h1 : getOpticalComponents pd lt li fs = .ok comps)
    (h2 : opticalComponentsAll pd lt li fs = .ok allc)
    (h3 : getThermalComponents pd lt li lth tfs thfs = .ok tcomps)
    (h4 : thermalComponentsAll pd lt li lth tfs thfs = .ok tallc) :
    comps = allc.filter (fun c => !c.isEmpty) ∧
      comps.all (fun c => !c.isEmpty) = true ∧
      tcomps = tallc.filter (fun c => !c.isEmpty) ∧
      tcomps.all (fun c => !c.isEmpty) = true := by
  simp only [Component.isEmpty, ThermalComponent.isEmpty]
  have e1 := getOptical_eq_filter pd lt li fs allc h2
  rw [h1] at e1
  have e1' := Except.ok.inj e1
  have e2 := getThermal_eq_filter pd lt li lth tfs thfs tallc h4
  rw [h3] at e2
  have e2' := Except.ok.inj e2
  refine ⟨e1', ?_, e2', ?_⟩
  · rw [e1']; exact filter_all_self _ _
  · rw [e2']; exact filter_all_self _ _

/-- Witness for C9 at a concrete pair of chains: the optical chain drops the
clear component, the thermal chain keeps components that have either curve. -/
theorem components_invariant_witness :
    [demoComponent] = [demoComponent, demoClearComponent].filter (fun c => !c.isEmpty) ∧
      [demoComponent].all (fun c => !c.isEmpty) = true ∧
      [demoThermalC0, demoThermalC1]
          = [demoThermalC0, demoThermalC1].filter (fun c => !c.isEmpty) ∧
      [demoThermalC0, demoThermalC1].all (fun c => !c.isEmpty) = true :=
  components_invariant demoPardict demoLoad demoLoadInterp demoLoadTherm
    ["f1", "clear"] ["clear", "f2"] ["th1", "clear"]
    [demoComponent] [demoComponent, demoClearComponent]
    [demoThermalC0, demoThermalC1] [demoThermalC0, demoThermalC1]
    rfl rfl rfl rfl

/-! ## Theorems: the thermal waveset intersection (claim C3) -/

theorem bool_eq_of_iff {a b : Bool} (h : a = true ↔ b = true) : a = b := by
  cases a <;> cases b <;> simp_all

theorem foldl_max_lt (l : List ℚ) : ∀ (a w : ℚ),
    List.foldl max a l < w ↔ a < w ∧ ∀ x ∈ l, x < w := by
  induction l with
  | nil => intro a w; simp
  | cons b rest ih =>
      intro a w
      simp only [List.foldl_cons, ih, max_lt_iff, List.forall_mem_cons]
      tauto

theorem lt_foldl_min (l : List ℚ) : ∀ (a w : ℚ),
    w < List.foldl min a l ↔ w < a ∧ ∀ x ∈ l, w < x := by
  induction l with
  | nil => intro a w; simp
  | cons b rest ih =>
      intro a w
      simp only [List.foldl_cons, ih, lt_min_iff, List.forall_mem_cons]
      tauto

theorem pyHead_ok (l : List ℚ) (h : l ≠ []) : pyHead l = .ok (l.head?.getD 0) := by
  cases l with
  | nil => exact absurd rfl h
  | cons a b => rfl

theorem pyLast_ok (l : List ℚ) (h : l ≠ []) : pyLast l = .ok (l.getLast?.getD 0) := by
  cases hg : l.getLast? with
  | none => rw [List.getLast?_eq_none_iff] at hg; exact absurd hg h
  | some x => simp [pyLast, hg]

theorem emissivityBounds_ok (l : List ThermalComponent) :
    ∀ (mm : ℚ × ℚ),
    l.all (fun c =>
        match c.emissivity with
        | some e => !e.waveset.isEmpty
        | none => true) = true →
    emissivityBounds mm l
      = .ok (List.foldl max mm.1 (emins l), List.foldl min mm.2 (emaxs l)) := by
  induction l with
  | nil => intro mm _; rfl
  | cons c rest ih =>
      intro mm hall
      simp only [List.all_cons, Bool.and_eq_true] at hall
      obtain ⟨hc, hrest⟩ := hall
      cases he : c.emissivity with
      | none =>
          simp only [emissivityBounds, he, emins, emaxs, List.filterMap_cons,
            Option.map_none']
          exact ih mm hrest
      | some e =>
          rw [he] at hc
          have hc2 : !e.waveset.isEmpty = true := by simpa using hc
          have hne2 : e.waveset ≠ [] := by
            intro hx
            rw [hx] at hc2
            simp at hc2
          have hstep : emissivityBounds mm (c :: rest)
              = emissivityBounds
                  (max mm.1 (e.waveset.head?.getD 0),
                   min mm.2 (e.waveset.getLast?.getD 0)) rest := by
            simp only [emissivityBounds, he, pyHead_ok e.waveset hne2,
              pyLast_ok e.waveset hne2]
          rw [hstep, ih _ hrest]
          simp only [emins, emaxs, List.filterMap_cons, he, Option.map_some',
            List.foldl_cons]

theorem mergeSeed_some (cs : List ThermalComponent)
    (h : cs.any (fun c => c.emissivity.isSome) = true) :
    ∀ (i : Nat), ∃ j seed, mergeSeed cs i = some (j, seed) := by
  induction cs with
  | nil => simp at h
  | cons c rest ih =>
      intro i
      cases he : c.emissivity with
      | some e => exact ⟨i, e.waveset, by simp [mergeSeed, he]⟩
      | none =>
          simp only [List.any_cons, Bool.or_eq_true] at h
          rcases h with h1 | h2
          · rw [he] at h1; simp at h1
          · obtain ⟨j, seed, hj⟩ := ih h2 (i + 1)
            exact ⟨j, seed, by simp [mergeSeed, he, hj]⟩

/-- Claim C3 as amended: the working grid of the thermal composition equals
the merged emissivity grids filtered to lie strictly above every per-source
minimum and strictly below every per-source maximum, where the bound sources
are the default grid, the calibration-spectrum domain, and the emissivity
grids of the components after the first — the first component's grid
contributes samples to the merge but no bounds, and boundary samples are
dropped together with out-of-bounds ones. -/
theorem wavesetIntersection_amended_eq (dw vw : List ℚ) (cs : List ThermalComponent)
    (hdw : dw ≠ []) (hvw : vw ≠ [])
    (hne : (cs.drop 1).all (fun c =>
        match c.emissivity with
        | some e => !e.waveset.isEmpty
        | none => true) = true)
    (hseed : cs.any (fun c => c.emissivity.isSome) = true) :
    getWavesetIntersection dw vw cs = wavesetIntersectionAmended dw vw cs := by
  obtain ⟨j, seed, hjs⟩ := mergeSeed_some cs hseed 1
  have hm : mergeEmissivityWavesets cs
      = .ok ((cs.drop j).foldl (fun res c =>
          match c.emissivity with
          | some e => MergeWaveSets res e.waveset
          | none => res) seed) := by
    simp [mergeEmissivityWavesets, hjs]
  have hb := emissivityBounds_ok (cs.drop 1)
      (dw.head?.getD 0, dw.getLast?.getD 0) hne
  simp only [getWavesetIntersection, wavesetIntersectionAmended, Bind.bind,
    Except.bind, pyHead_ok dw hdw, pyHead_ok vw hvw, pyLast_ok dw hdw,
    pyLast_ok vw hvw, hm, hb, Except.map, Pure.pure, Except.pure]
  congr 1
  rw [List.filter_filter, List.filter_filter, List.filter_filter]
  apply List.filter_congr
  intro w hwmem
  apply bool_eq_of_iff
  simp only [Bool.and_eq_true, decide_eq_true_iff, List.all_eq_true,
    lowerSources, upperSources, List.forall_mem_cons, foldl_max_lt, lt_foldl_min]
  tauto

/-- Witness for C3 as amended at a concrete two-component chain. -/
theorem wavesetIntersection_amended_witness :
    (([1, 10] : List ℚ) ≠ [] ∧ (([0, 100] : List ℚ)) ≠ [] ∧
        (([demoThermalA, demoThermalB].drop 1).all (fun c =>
            match c.emissivity with
            | some e => !e.waveset.isEmpty
            | none => true) = true) ∧
        ([demoThermalA, demoThermalB].any (fun c => c.emissivity.isSome) = true)) ∧
      getWavesetIntersection [1, 10] [0, 100] [demoThermalA, demoThermalB]
        = wavesetIntersectionAmended [1, 10] [0, 100] [demoThermalA, demoThermalB] :=
  ⟨⟨by decide, by decide, by decide, by decide⟩,
    wavesetIntersection_amended_eq [1, 10] [0, 100] [demoThermalA, demoThermalB]
      (by decide) (by decide) (by decide) (by decide)⟩

/-- Counterexample to claim C3: with default grid [1, 10], calibration domain
[0, 100], and a chain whose first component has emissivity grid [3, 5] and
whose second has [2, 7, 9], the code keeps [3, 5, 7] — the sample 7 lies
strictly above the first component's grid maximum 5 — because the bounds loop
runs over `self.components[1:]` only; the grid described by the claim, in
which every component's grid bounds the intersection, is [] here, so the two
differ. -/
theorem wavesetIntersection_counterexample :
    getWavesetIntersection [1, 10] [0, 100] [demoThermalA, demoThermalB]
        = .ok [3, 5, 7] ∧
      wavesetIntersectionClaim [1, 10] [0, 100] [demoThermalA, demoThermalB]
        = .ok [] ∧
      getWavesetIntersection [1, 10] [0, 100] [demoThermalA, demoThermalB]
        ≠ wavesetIntersectionClaim [1, 10] [0, 100] [demoThermalA, demoThermalB] := by
  refine ⟨?_, ?_, ?_⟩ <;> with_unfolding_all decide
